import Mathlib

/-!
Verification of the SnakeGuard offline detection queue and sync coordinator
(`src/pi/offline_queue.py`, `src/pi/offline_sync.py`).

The SQLite table `detection_queue` is embedded as a list of records plus the
autoincrement counter.  Timestamps (`created_at`, `timestamp`) are ISO-8601
strings in the source, compared lexicographically by SQLite; for a fixed-width
ISO format that order coincides with chronological order, so they are embedded
as natural numbers.  The `detection_id` string is `"offline_" ++ ms` where
`ms = int(time.time()*1000)`; since the prefix is constant the id is in
bijection with `ms`, so it is embedded as that natural number.
-/

namespace SnakeGuard

/-- A row of the `detection_queue` table. -/
structure Rec where
  id : Nat
  detection_id : Nat
  image_path : String
  confidence : Int
  timestamp : Nat
  latitude : Option Int
  longitude : Option Int
  metadata : Option String
  upload_attempts : Nat
  created_at : Nat
  synced : Bool
deriving DecidableEq, Repr

/-- The persistent store: table rows in insertion order, plus the
`AUTOINCREMENT` counter (never reused). -/
structure Store where
  rows : List Rec
  nextId : Nat
deriving DecidableEq, Repr

/-- `MAX_QUEUE_SIZE = 1000` from `offline_queue.py`. -/
def MAX_QUEUE_SIZE : Nat := 1000

/-- A row is pending when `synced = 0`. -/
def pendingB (r : Rec) : Bool := !r.synced

/-- `SELECT * FROM detection_queue WHERE synced = 0` (in table order). -/
def pendingRows (rows : List Rec) : List Rec := rows.filter pendingB

/-- `SELECT COUNT(*) FROM detection_queue WHERE synced = 0`. -/
def pendingCount (rows : List Rec) : Nat := (pendingRows rows).length

/-- Minimum `created_at` among pending rows
(the `ORDER BY created_at ASC LIMIT 1` in the eviction subquery). -/
def minCreated (rows : List Rec) : Option Nat :=
  match (pendingRows rows).map (fun r => r.created_at) with
  | [] => none
  | x :: xs => some (xs.foldl Nat.min x)

/-- Delete the first pending row whose `created_at` equals `m`
(the row `DELETE ... WHERE id = (SELECT id ...)` removes). -/
def deleteOldest (m : Nat) : List Rec → List Rec
  | [] => []
  | r :: rest =>
    if pendingB r && r.created_at == m then rest else r :: deleteOldest m rest

/-- The eviction step of `add_detection`: remove the oldest unsynced row. -/
def evictOldest (rows : List Rec) : List Rec :=
  match minCreated rows with
  | none => rows
  | some m => deleteOldest m rows

/-- The inputs of one `add_detection` call, together with the clock values the
source reads during it: `t_ms = int(time.time()*1000)` (detection id),
`ts_now` and `created_now` the two `datetime.utcnow().isoformat()` reads. -/
structure EnqueueArgs where
  image_path : String
  confidence : Int
  latitude : Option Int
  longitude : Option Int
  metadata : Option String
  t_ms : Nat
  ts_now : Nat
  created_now : Nat
deriving DecidableEq, Repr

/-- The row inserted by `add_detection` (`upload_attempts` and `synced`
take their column defaults `0`). -/
def mkRec (rowId : Nat) (a : EnqueueArgs) : Rec :=
  { id := rowId
    detection_id := a.t_ms
    image_path := a.image_path
    confidence := a.confidence
    timestamp := a.ts_now
    latitude := a.latitude
    longitude := a.longitude
    metadata := a.metadata
    upload_attempts := 0
    created_at := a.created_now
    synced := false }

/-- `OfflineQueue.add_detection`.  If the pending count is at or above
`MAX_QUEUE_SIZE` the oldest pending row is deleted first; then the insert
runs.  The `detection_id` column is `UNIQUE`, so inserting an id already
present raises `IntegrityError`; the connection context manager rolls the
whole transaction back, leaving the store unchanged (`Except.error`). -/
def add_detection (s : Store) (a : EnqueueArgs) : Except Unit (Store × Nat) :=
  let did := a.t_ms
  let rows1 :=
    if MAX_QUEUE_SIZE ≤ pendingCount s.rows then evictOldest s.rows else s.rows
  if rows1.any (fun r => r.detection_id == did) then Except.error ()
  else Except.ok ({ rows := rows1 ++ [mkRec s.nextId a], nextId := s.nextId + 1 }, did)

/-- The store after one `add_detection` call (unchanged when the call raises,
thanks to the rollback). -/
def enqueueStep (s : Store) (a : EnqueueArgs) : Store :=
  match add_detection s a with
  | Except.ok (s', _) => s'
  | Except.error _ => s

/-- The store after a sequence of `add_detection` calls. -/
def runEnqueues (s : Store) (calls : List EnqueueArgs) : Store :=
  calls.foldl enqueueStep s

/-- `ORDER BY created_at ASC` as a relation on rows. -/
def recLE (a b : Rec) : Prop := a.created_at ≤ b.created_at

instance : DecidableRel recLE := fun a b => Nat.decLe a.created_at b.created_at

instance : IsTotal Rec recLE := ⟨fun a b => Nat.le_total a.created_at b.created_at⟩

instance : IsTrans Rec recLE := ⟨fun _ _ _ h1 h2 => Nat.le_trans h1 h2⟩

/-- `OfflineQueue.get_unsynced_detections`:
`SELECT * WHERE synced = 0 ORDER BY created_at ASC LIMIT ?`.
SQLite scans the `(synced, created_at)` index, so rows with equal
`created_at` come out in rowid (insertion) order: a stable sort. -/
def get_unsynced_detections (st : Store) (limit : Nat) : List Rec :=
  (List.insertionSort recLE (pendingRows st.rows)).take limit

/-- The row transformer of `mark_synced`:
`UPDATE detection_queue SET synced = 1 WHERE detection_id = ?`. -/
def markFn (did : Nat) (r : Rec) : Rec :=
  if r.detection_id == did then { r with synced := true } else r

/-- `OfflineQueue.mark_synced`. -/
def mark_synced (st : Store) (did : Nat) : Store :=
  { st with rows := st.rows.map (markFn did) }

/-- The row transformer of `increment_upload_attempts`:
`UPDATE ... SET upload_attempts = upload_attempts + 1 WHERE detection_id = ?`. -/
def incFn (did : Nat) (r : Rec) : Rec :=
  if r.detection_id == did then { r with upload_attempts := r.upload_attempts + 1 } else r

/-- `OfflineQueue.increment_upload_attempts`. -/
def increment_upload_attempts (st : Store) (did : Nat) : Store :=
  { st with rows := st.rows.map (incFn did) }

/-!  The sync coordinator (`offline_sync.py`).  The Supabase backend is
external; one publish attempt of `sync_detection` is driven by an
`AttemptSpec` describing where (if anywhere) the backend fails, matching the
distinct failure points of the source: the local file check, the storage
upload (falsy result or exception), and the metadata insert (empty
`response.data` or exception). -/

/-- Outcome of the external world for one publish attempt. -/
inductive AttemptSpec where
  | fileMissing
  | uploadErr
  | insertErr
  | ok (remoteId : Nat)
deriving DecidableEq, Repr

/-- The metadata row sent to `supabase.table("snake_detections").insert`.
`latitude`/`longitude` are `none` when the key is omitted from the dict.
`image_url` is the public URL derived from `f"{detection_id}.jpg"`, embedded
by its key. -/
structure DetectionData where
  timestamp : Nat
  confidence : Int
  image_url : Nat
  latitude : Option Int
  longitude : Option Int
deriving DecidableEq, Repr

/-- Python truthiness on an optional REAL column:
`if value:` on the latitude column is false for `None` and for `0.0`. -/
def truthyF (o : Option Int) : Option Int :=
  match o with
  | none => none
  | some v => if v = 0 then none else some v

/-- The `detection_data` dict built by `sync_detection` for a row `r`. -/
def detectionDataOf (r : Rec) : DetectionData :=
  { timestamp := r.timestamp
    confidence := r.confidence
    image_url := r.detection_id
    latitude := truthyF r.latitude
    longitude := truthyF r.longitude }

/-- Observable backend traffic of a publish attempt or cycle. -/
structure Events where
  uploads : Nat
  insertCalls : Nat
  insertSuccesses : Nat
  insertedRows : List DetectionData
deriving DecidableEq, Repr

/-- No backend traffic. -/
def Events.zero : Events := ⟨0, 0, 0, []⟩

/-- Concatenate backend traffic. -/
def Events.add (a b : Events) : Events :=
  ⟨a.uploads + b.uploads, a.insertCalls + b.insertCalls,
    a.insertSuccesses + b.insertSuccesses, a.insertedRows ++ b.insertedRows⟩

/-- `OfflineSync.sync_detection` on the fetched row `r`, with the world
behaving as `o`.  Returns the `(success, uploaded_id)` pair, the store after
the call, and the backend traffic.  Control flow from the source:
a missing file returns `(False, None)` before any backend call and without
touching the store; a failed upload increments the attempt counter and never
reaches the insert; a failed insert increments the counter after the row was
sent; on success the row is marked synced. -/
def sync_detection (st : Store) (r : Rec) (o : AttemptSpec) :
    (Bool × Option Nat) × Store × Events :=
  match o with
  | AttemptSpec.fileMissing =>
      ((false, none), st, Events.zero)
  | AttemptSpec.uploadErr =>
      ((false, none), increment_upload_attempts st r.detection_id,
        ⟨1, 0, 0, []⟩)
  | AttemptSpec.insertErr =>
      ((false, none), increment_upload_attempts st r.detection_id,
        ⟨1, 1, 0, [detectionDataOf r]⟩)
  | AttemptSpec.ok rid =>
      ((true, some rid), mark_synced st r.detection_id,
        ⟨1, 1, 1, [detectionDataOf r]⟩)

/-- Result dict of `sync_all`. -/
inductive SyncResult where
  | already_syncing
  | no_connection
  | completed (synced failed total : Nat)
deriving DecidableEq, Repr

/-- The coordinator state: the queue store plus the `self.syncing` guard. -/
structure SyncState where
  store : Store
  syncing : Bool
deriving DecidableEq, Repr

/-- Result of the per-record loop of `sync_all`. -/
structure BatchOut where
  store : Store
  okCount : Nat
  failCount : Nat
  events : Events
deriving DecidableEq, Repr

/-- The `for detection in unsynced:` loop body of `sync_all`, with the world
behaving as `env i` on the `i`-th record of the batch. -/
def processBatch (env : Nat → AttemptSpec) (st : Store) (batch : List Rec)
    (i : Nat) : BatchOut :=
  match batch with
  | [] => ⟨st, 0, 0, Events.zero⟩
  | r :: rest =>
    let step := sync_detection st r (env i)
    let restOut := processBatch env step.2.1 rest (i + 1)
    ⟨restOut.store,
      (if step.1.1 then restOut.okCount + 1 else restOut.okCount),
      (if step.1.1 then restOut.failCount else restOut.failCount + 1),
      Events.add step.2.2 restOut.events⟩

/-- `OfflineSync.sync_all`.  `online` is the result of `check_connection`.
If the `syncing` guard is set the call returns `already_syncing` at once,
with no fetch, no publish, and no store mutation; otherwise the guard is set,
a batch is fetched and published sequentially, and the guard is cleared in
the `finally` block. -/
def sync_all (ss : SyncState) (online : Bool) (env : Nat → AttemptSpec)
    (batch_size : Nat) : SyncResult × SyncState × Events :=
  if ss.syncing then (SyncResult.already_syncing, ss, Events.zero)
  else if online = false then (SyncResult.no_connection, ss, Events.zero)
  else
    let batch := get_unsynced_detections ss.store batch_size
    let out := processBatch env ss.store batch 0
    (SyncResult.completed out.okCount out.failCount batch.length,
      ⟨out.store, false⟩, out.events)

/-!  The retention sweeper (`OfflineQueue.cleanup_old_synced`). -/

/-- A calendar date (the `utcnow()` value after zeroing the time fields). -/
structure Date where
  year : Nat
  month : Nat
  day : Nat
deriving DecidableEq, Repr

/-- Gregorian leap year. -/
def isLeap (y : Nat) : Bool := (y % 4 == 0 && y % 100 != 0) || y % 400 == 0

/-- Length of a month, as `datetime.replace` validates the `day` field. -/
def daysInMonth (y m : Nat) : Nat :=
  if m == 2 then (if isLeap y then 29 else 28)
  else if m == 4 || m == 6 || m == 9 || m == 11 then 30
  else 31

/-- Embedding of a midnight ISO timestamp into the `Nat` timestamp order:
fixed-width ISO strings compare lexicographically, i.e. by
(year, month, day) and then time-of-day; the factor leaves room below one
day for the time-of-day of record timestamps. -/
def dateTs (d : Date) : Nat :=
  ((d.year * 13 + d.month) * 32 + d.day) * 86400000000

/-- The cutoff timestamp `cleanup_old_synced` compares against, when the day
replacement succeeds (day-of-month decreased by `days`). -/
def cutoffOf (today : Date) (days : Nat) : Nat :=
  dateTs ⟨today.year, today.month, today.day - days⟩

/-- `OfflineQueue.cleanup_old_synced`.  The cutoff is computed by
`cutoff_date.replace(day=cutoff_date.day - days)`: the day-of-month field is
replaced by `day - days` (Python `int` arithmetic), and `datetime.replace`
raises `ValueError` unless that value names a valid day of the current
month.  On success, rows with `synced = 1 AND created_at < cutoff` are
deleted and their count returned. -/
def cleanup_old_synced (s : Store) (today : Date) (days : Nat) :
    Except Unit (Store × Nat) :=
  let newDay : Int := (today.day : Int) - (days : Int)
  if 1 ≤ newDay ∧ newDay ≤ (daysInMonth today.year today.month : Int) then
    let cutoff := cutoffOf today days
    let removed := s.rows.filter (fun r => r.synced && decide (r.created_at < cutoff))
    let kept := s.rows.filter (fun r => !(r.synced && decide (r.created_at < cutoff)))
    Except.ok (⟨kept, s.nextId⟩, removed.length)
  else Except.error ()

/-- Three consecutive `sync_all` cycles (batch size 5, connection up) on a
store holding the single record `r`, with the backend behaving as `o1`, `o2`
and success (remote id `rid`) respectively; returns the three cycle
results. -/
def threeCycles (r : Rec) (k : Nat) (o1 o2 : AttemptSpec) (rid : Nat) :
    (SyncResult × SyncState × Events) × (SyncResult × SyncState × Events) ×
      (SyncResult × SyncState × Events) :=
  let cyc1 := sync_all ⟨⟨[r], k⟩, false⟩ true (fun _ => o1) 5
  let cyc2 := sync_all cyc1.2.1 true (fun _ => o2) 5
  let cyc3 := sync_all cyc2.2.1 true (fun _ => AttemptSpec.ok rid) 5
  (cyc1, cyc2, cyc3)

/-!  Concrete sample data used to instantiate the theorems. -/

/-- A concrete `add_detection` call: clock millisecond value 5. -/
def sampleArgs : EnqueueArgs :=
  ⟨"img.jpg", 87, none, none, none, 5, 10, 12⟩

/-- A concrete pending row (attempts 0, `detection_id` 5). -/
def sampleRow : Rec := mkRec 1 sampleArgs

/-- A full queue: `MAX_QUEUE_SIZE` pending rows. -/
def fullRows : List Rec := List.replicate MAX_QUEUE_SIZE sampleRow

/-- A coordinator state whose cycle-in-progress guard is set. -/
def guardedState : SyncState := ⟨⟨[sampleRow], 2⟩, true⟩

/-- A store holding one already-synced row (`detection_id` 5). -/
def syncedStore : Store := ⟨[{ sampleRow with synced := true }], 2⟩

/-- A store holding one pending row. -/
def pendingStore : Store := ⟨[sampleRow], 2⟩

/-- A second enqueue call in the same clock millisecond as `sampleArgs`. -/
def collidingArgs : EnqueueArgs :=
  ⟨"other.jpg", 91, some 3, some 4, none, 5, 20, 22⟩

/-- A pending row whose location is present but reads `(0.0, 0.0)`. -/
def zeroLocRow : Rec :=
  { sampleRow with latitude := some 0, longitude := some 0 }

/-- Store holding `zeroLocRow`. -/
def zeroLocStore : Store := ⟨[zeroLocRow], 2⟩

/-- Retention cutoff for a sweep run on 2026-10-12 with a 7-day window. -/
def cut7 : Nat := cutoffOf ⟨2026, 10, 12⟩ 7

/-- A synced row strictly older than the cutoff. -/
def oldSyncedRow : Rec :=
  { sampleRow with detection_id := 21, synced := true, created_at := cut7 - 1 }

/-- A synced row exactly at the cutoff. -/
def edgeSyncedRow : Rec :=
  { sampleRow with detection_id := 22, synced := true, created_at := cut7 }

/-- A pending row far older than the cutoff. -/
def oldPendingRow : Rec :=
  { sampleRow with detection_id := 23, synced := false, created_at := 0 }

/-- Store exercised by the retention sweep. -/
def sweepStore : Store := ⟨[oldSyncedRow, edgeSyncedRow, oldPendingRow], 9⟩

/-- The sweep store after the sweep. -/
def sweptStore : Store := ⟨[edgeSyncedRow, oldPendingRow], 9⟩

/-!  Helper lemmas about the eviction machinery. -/

theorem foldl_min_le_init : ∀ (xs : List Nat) (x : Nat), xs.foldl Nat.min x ≤ x := by
  intro xs
  induction xs with
  | nil => intro x; exact Nat.le_refl x
  | cons y ys ih =>
    intro x
    exact Nat.le_trans (ih (Nat.min x y)) (Nat.min_le_left x y)

theorem foldl_min_le_mem : ∀ (xs : List Nat) (x y : Nat), y ∈ xs → xs.foldl Nat.min x ≤ y := by
  intro xs
  induction xs with
  | nil => intro x y hy; cases hy
  | cons z zs ih =>
    intro x y hy
    rcases List.mem_cons.mp hy with h | h
    · subst h
      exact Nat.le_trans (foldl_min_le_init zs (Nat.min x y)) (Nat.min_le_right x y)
    · exact ih (Nat.min x z) y h

theorem foldl_min_mem : ∀ (xs : List Nat) (x : Nat),
    xs.foldl Nat.min x = x ∨ xs.foldl Nat.min x ∈ xs := by
  intro xs
  induction xs with
  | nil => intro x; exact Or.inl rfl
  | cons y ys ih =>
    intro x
    rcases ih (Nat.min x y) with h | h
    · rcases Nat.le_total x y with hxy | hyx
      · left
        rw [List.foldl_cons, h]
        exact Nat.min_eq_left hxy
      · right
        rw [List.foldl_cons, h, show Nat.min x y = y from Nat.min_eq_right hyx]
        exact List.mem_cons_self y ys
    · right
      exact List.mem_cons_of_mem y h

theorem minCreated_spec (rows : List Rec) (h : 0 < pendingCount rows) :
    ∃ m, minCreated rows = some m ∧
      (∃ r ∈ rows, pendingB r = true ∧ r.created_at = m) ∧
      (∀ r ∈ rows, pendingB r = true → m ≤ r.created_at) := by
  unfold pendingCount at h
  cases hl : pendingRows rows with
  | nil => rw [hl] at h; cases h
  | cons r0 rest =>
    refine ⟨(rest.map (fun r => r.created_at)).foldl Nat.min r0.created_at, ?_, ?_, ?_⟩
    · unfold minCreated
      rw [hl, List.map_cons]
    · rcases foldl_min_mem (rest.map (fun r => r.created_at)) r0.created_at with he | he
      · have h0 : r0 ∈ pendingRows rows := by rw [hl]; exact List.mem_cons_self r0 rest
        exact ⟨r0, List.mem_of_mem_filter h0, List.of_mem_filter h0, he.symm⟩
      · rcases List.mem_map.mp he with ⟨r1, hr1, he1⟩
        have h1 : r1 ∈ pendingRows rows := by rw [hl]; exact List.mem_cons_of_mem r0 hr1
        exact ⟨r1, List.mem_of_mem_filter h1, List.of_mem_filter h1, he1⟩
    · intro r hr hp
      have hmem : r ∈ pendingRows rows := List.mem_filter.mpr ⟨hr, hp⟩
      rw [hl] at hmem
      rcases List.mem_cons.mp hmem with he | he
      · subst he
        exact foldl_min_le_init _ _
      · exact foldl_min_le_mem _ _ _ (List.mem_map.mpr ⟨r, he, rfl⟩)

theorem deleteOldest_decomp (m : Nat) :
    ∀ (l : List Rec), (∃ a ∈ l, pendingB a = true ∧ a.created_at = m) →
    ∃ l₁ a l₂, pendingB a = true ∧ a.created_at = m ∧ l = l₁ ++ a :: l₂ ∧
      deleteOldest m l = l₁ ++ l₂ := by
  intro l
  induction l with
  | nil => intro h; rcases h with ⟨a, ha, _⟩; cases ha
  | cons r rest ih =>
    intro h
    by_cases hc : (pendingB r && r.created_at == m) = true
    · have hc' : pendingB r = true ∧ r.created_at = m := by
        simpa [Bool.and_eq_true, beq_iff_eq] using hc
      refine ⟨[], r, rest, hc'.1, hc'.2, by simp, ?_⟩
      simp [deleteOldest, hc]
    · have hrest : ∃ a ∈ rest, pendingB a = true ∧ a.created_at = m := by
        rcases h with ⟨a, ha, hp, he⟩
        rcases List.mem_cons.mp ha with h1 | h1
        · exfalso
          subst h1
          exact hc (by simp [hp, he])
        · exact ⟨a, h1, hp, he⟩
      rcases ih hrest with ⟨l₁, a, l₂, hp, he, hl, hd⟩
      refine ⟨r :: l₁, a, l₂, hp, he, by rw [hl]; rfl, ?_⟩
      simp [deleteOldest, hc, hd]

theorem evictOldest_spec (rows : List Rec) (h : 0 < pendingCount rows) :
    ∃ l₁ r l₂, rows = l₁ ++ r :: l₂ ∧ r.synced = false ∧
      (∀ r' ∈ rows, r'.synced = false → r.created_at ≤ r'.created_at) ∧
      evictOldest rows = l₁ ++ l₂ := by
  rcases minCreated_spec rows h with ⟨m, hm, ⟨a, ha, hap, hae⟩, hmin⟩
  rcases deleteOldest_decomp m rows ⟨a, ha, hap, hae⟩ with ⟨l₁, r, l₂, hp, he, hl, hd⟩
  refine ⟨l₁, r, l₂, hl, ?_, ?_, ?_⟩
  · simpa [pendingB] using hp
  · intro r' hr' hs'
    rw [he]
    exact hmin r' hr' (by simp [pendingB, hs'])
  · simp [evictOldest, hm, hd]

theorem pendingCount_append (xs ys : List Rec) :
    pendingCount (xs ++ ys) = pendingCount xs + pendingCount ys := by
  simp [pendingCount, pendingRows, List.filter_append]

theorem pendingCount_cons (r : Rec) (xs : List Rec) :
    pendingCount (r :: xs) = (if pendingB r then 1 else 0) + pendingCount xs := by
  simp only [pendingCount, pendingRows, List.filter_cons]
  by_cases h : pendingB r = true
  · simp [h, Nat.add_comm]
  · simp [h]

theorem pendingCount_evict (rows : List Rec) (h : 0 < pendingCount rows) :
    pendingCount (evictOldest rows) + 1 = pendingCount rows := by
  rcases evictOldest_spec rows h with ⟨l₁, r, l₂, hl, hs, _, hd⟩
  rw [hd, hl, pendingCount_append, pendingCount_append, pendingCount_cons]
  simp [pendingB, hs]
  omega

theorem mem_deleteOldest (m : Nat) :
    ∀ (l : List Rec), ∀ x ∈ deleteOldest m l, x ∈ l := by
  intro l
  induction l with
  | nil => intro x hx; cases hx
  | cons r rest ih =>
    intro x hx
    by_cases hc : (pendingB r && r.created_at == m) = true
    · simp only [deleteOldest, hc, if_pos] at hx
      exact List.mem_cons_of_mem r hx
    · simp only [deleteOldest, hc, if_neg, Bool.not_eq_true] at hx
      rcases List.mem_cons.mp hx with h1 | h1
      · exact h1 ▸ List.mem_cons_self r rest
      · exact List.mem_cons_of_mem r (ih x h1)

theorem mem_evictOldest (rows : List Rec) : ∀ x ∈ evictOldest rows, x ∈ rows := by
  unfold evictOldest
  cases hm : minCreated rows with
  | none => intro x hx; exact hx
  | some m => exact mem_deleteOldest m rows

theorem enqueueStep_le (s : Store) (a : EnqueueArgs)
    (h : pendingCount s.rows ≤ MAX_QUEUE_SIZE) :
    pendingCount (enqueueStep s a).rows ≤ MAX_QUEUE_SIZE := by
  unfold enqueueStep add_detection
  by_cases hg : MAX_QUEUE_SIZE ≤ pendingCount s.rows
  · have heq : pendingCount s.rows = MAX_QUEUE_SIZE := Nat.le_antisymm h hg
    have hpos : 0 < pendingCount s.rows := by rw [heq]; decide
    have hev := pendingCount_evict s.rows hpos
    rw [if_pos hg]
    by_cases hc : (evictOldest s.rows).any (fun r => r.detection_id == a.t_ms) = true
    · rw [if_pos hc]
      exact h
    · rw [if_neg hc]
      show pendingCount (evictOldest s.rows ++ [mkRec s.nextId a]) ≤ MAX_QUEUE_SIZE
      rw [pendingCount_append]
      have h1 : pendingCount [mkRec s.nextId a] = 1 := by
        rw [pendingCount_cons]; rfl
      omega
  · rw [if_neg hg]
    by_cases hc : s.rows.any (fun r => r.detection_id == a.t_ms) = true
    · rw [if_pos hc]
      exact h
    · rw [if_neg hc]
      show pendingCount (s.rows ++ [mkRec s.nextId a]) ≤ MAX_QUEUE_SIZE
      rw [pendingCount_append]
      have h1 : pendingCount [mkRec s.nextId a] = 1 := by
        rw [pendingCount_cons]; rfl
      have h2 : pendingCount s.rows < MAX_QUEUE_SIZE := Nat.lt_of_not_le hg
      omega

theorem runEnqueues_le : ∀ (calls : List EnqueueArgs) (s : Store),
    pendingCount s.rows ≤ MAX_QUEUE_SIZE →
    pendingCount (runEnqueues s calls).rows ≤ MAX_QUEUE_SIZE := by
  intro calls
  induction calls with
  | nil => intro s h; exact h
  | cons a rest ih =>
    intro s h
    have : runEnqueues s (a :: rest) = runEnqueues (enqueueStep s a) rest := rfl
    rw [this]
    exact ih (enqueueStep s a) (enqueueStep_le s a h)

/-- Pending count of a replicated pending row (used to instantiate the
capacity hypothesis concretely). -/
theorem pendingCount_replicate (n : Nat) (r : Rec) (h : r.synced = false) :
    pendingCount (List.replicate n r) = n := by
  induction n with
  | zero => rfl
  | succ k ih =>
    rw [List.replicate_succ, pendingCount_cons, ih]
    simp only [pendingB, h, Bool.not_false, if_pos]
    omega

/-!  Helper lemmas about `map`-based updates. -/

theorem map_id_of {α : Type} (f : α → α) :
    ∀ (l : List α), (∀ x ∈ l, f x = x) → l.map f = l := by
  intro l
  induction l with
  | nil => intro _; rfl
  | cons x xs ih =>
    intro h
    rw [List.map_cons, h x (List.mem_cons_self x xs),
      ih (fun y hy => h y (List.mem_cons_of_mem x hy))]

theorem map_map_eq {α : Type} (f : α → α) (hf : ∀ x, f (f x) = f x) :
    ∀ (l : List α), (l.map f).map f = l.map f := by
  intro l
  induction l with
  | nil => rfl
  | cons x xs ih =>
    rw [List.map_cons, List.map_cons, hf x, ih]

theorem markFn_markFn (did : Nat) (r : Rec) :
    markFn did (markFn did r) = markFn did r := by
  unfold markFn
  by_cases hc : (r.detection_id == did) = true
  · simp [hc]
  · simp [hc]

theorem markFn_of_ne (did : Nat) (r : Rec) (h : r.detection_id ≠ did) :
    markFn did r = r := by
  simp [markFn, h]

theorem markFn_of_synced (did : Nat) (r : Rec) (h : r.synced = true) :
    markFn did r = r := by
  obtain ⟨i, d, ip, c, t, la, lo, md, ua, ca, sy⟩ := r
  simp only [markFn]
  by_cases hc : (d == did) = true
  · rw [if_pos hc]
    simp_all
  · rw [if_neg hc]

/-!  Helper lemmas computing one sync cycle on a single-record store. -/

theorem batch_single (st : Store) (r : Rec) (hs : r.synced = false)
    (hr : st.rows = [r]) : get_unsynced_detections st 5 = [r] := by
  unfold get_unsynced_detections pendingRows
  rw [hr, show List.filter pendingB [r] = [r] from by simp [pendingB, hs]]
  rfl

theorem cycle_uploadErr (r : Rec) (k : Nat) (hs : r.synced = false) :
    sync_all ⟨⟨[r], k⟩, false⟩ true (fun _ => AttemptSpec.uploadErr) 5 =
      (SyncResult.completed 0 1 1,
        ⟨⟨[{ r with upload_attempts := r.upload_attempts + 1 }], k⟩, false⟩,
        ⟨1, 0, 0, []⟩) := by
  have hb : get_unsynced_detections ⟨[r], k⟩ 5 = [r] := batch_single _ r hs rfl
  unfold sync_all
  rw [if_neg (by decide : ¬((false : Bool) = true))]
  rw [if_neg (by decide : ¬((true : Bool) = false))]
  rw [hb]
  simp [processBatch, sync_detection, increment_upload_attempts, incFn,
    Events.add, Events.zero]

theorem cycle_insertErr (r : Rec) (k : Nat) (hs : r.synced = false) :
    sync_all ⟨⟨[r], k⟩, false⟩ true (fun _ => AttemptSpec.insertErr) 5 =
      (SyncResult.completed 0 1 1,
        ⟨⟨[{ r with upload_attempts := r.upload_attempts + 1 }], k⟩, false⟩,
        ⟨1, 1, 0, [detectionDataOf r]⟩) := by
  have hb : get_unsynced_detections ⟨[r], k⟩ 5 = [r] := batch_single _ r hs rfl
  unfold sync_all
  rw [if_neg (by decide : ¬((false : Bool) = true))]
  rw [if_neg (by decide : ¬((true : Bool) = false))]
  rw [hb]
  simp [processBatch, sync_detection, increment_upload_attempts, incFn,
    Events.add, Events.zero]

theorem cycle_ok (r : Rec) (k : Nat) (rid : Nat) (hs : r.synced = false) :
    sync_all ⟨⟨[r], k⟩, false⟩ true (fun _ => AttemptSpec.ok rid) 5 =
      (SyncResult.completed 1 0 1,
        ⟨⟨[{ r with synced := true }], k⟩, false⟩,
        ⟨1, 1, 1, [detectionDataOf r]⟩) := by
  have hb : get_unsynced_detections ⟨[r], k⟩ 5 = [r] := batch_single _ r hs rfl
  unfold sync_all
  rw [if_neg (by decide : ¬((false : Bool) = true))]
  rw [if_neg (by decide : ¬((true : Bool) = false))]
  rw [hb]
  simp [processBatch, sync_detection, mark_synced, markFn,
    Events.add, Events.zero]

/-!  The claim theorems. -/

/-- Claim C1: starting from a store whose pending count is at most
`MAX_QUEUE_SIZE`, no sequence of `add_detection` calls ever pushes the
pending count above `MAX_QUEUE_SIZE`; and whenever the pending count is at
the maximum at enqueue time, the eviction step deletes exactly one row,
which is pending and has the smallest `created_at` among pending rows, and
a successful insert appends the new row to the evicted table. -/
theorem c1_capacity_eviction :
    (∀ (s : Store) (calls : List EnqueueArgs),
      pendingCount s.rows ≤ MAX_QUEUE_SIZE →
      pendingCount (runEnqueues s calls).rows ≤ MAX_QUEUE_SIZE) ∧
    (∀ (s : Store) (a : EnqueueArgs), pendingCount s.rows = MAX_QUEUE_SIZE →
      (∃ l₁ r l₂, s.rows = l₁ ++ r :: l₂ ∧ r.synced = false ∧
        (∀ r' ∈ s.rows, r'.synced = false → r.created_at ≤ r'.created_at) ∧
        evictOldest s.rows = l₁ ++ l₂) ∧
      (∀ out, add_detection s a = Except.ok out →
        out.1.rows = evictOldest s.rows ++ [mkRec s.nextId a])) := by
  constructor
  · intro s calls h
    exact runEnqueues_le calls s h
  · intro s a h
    constructor
    · exact evictOldest_spec s.rows (by rw [h]; decide)
    · intro out hout
      unfold add_detection at hout
      rw [if_pos (Nat.le_of_eq h.symm)] at hout
      by_cases hc : (evictOldest s.rows).any (fun r => r.detection_id == a.t_ms) = true
      · rw [if_pos hc] at hout
        cases hout
      · rw [if_neg hc] at hout
        injection hout with h1
        rw [← h1]

theorem c1_capacity_eviction_witness :
    (pendingCount (runEnqueues ⟨[], 1⟩ [sampleArgs]).rows ≤ MAX_QUEUE_SIZE) ∧
    ((∃ l₁ r l₂, fullRows = l₁ ++ r :: l₂ ∧ r.synced = false ∧
        (∀ r' ∈ fullRows, r'.synced = false → r.created_at ≤ r'.created_at) ∧
        evictOldest fullRows = l₁ ++ l₂) ∧
      (∀ out, add_detection ⟨fullRows, 1001⟩ sampleArgs = Except.ok out →
        out.1.rows = evictOldest fullRows ++ [mkRec 1001 sampleArgs])) := by
  refine ⟨c1_capacity_eviction.1 ⟨[], 1⟩ [sampleArgs] (by decide), ?_⟩
  exact c1_capacity_eviction.2 ⟨fullRows, 1001⟩ sampleArgs
    (pendingCount_replicate MAX_QUEUE_SIZE sampleRow rfl)

/-- Claim C3: a `sync_all` call that finds the `syncing` guard set returns
`already_syncing` and performs no publishes and no store mutations. -/
theorem c3_single_flight (ss : SyncState) (online : Bool)
    (env : Nat → AttemptSpec) (batch_size : Nat) (h : ss.syncing = true) :
    sync_all ss online env batch_size =
      (SyncResult.already_syncing, ss, Events.zero) := by
  unfold sync_all
  rw [if_pos h]

theorem c3_single_flight_witness :
    sync_all guardedState true (fun _ => AttemptSpec.fileMissing) 5 =
      (SyncResult.already_syncing, guardedState, Events.zero) :=
  c3_single_flight guardedState true (fun _ => AttemptSpec.fileMissing) 5 rfl

/-- Claim C4: `mark_synced` is idempotent and total: it is a pure total
function (it never raises), marking a nonexistent id or an already-synced id
leaves the store unchanged, and marking twice equals marking once. -/
theorem c4_mark_synced_idempotent (st : Store) (did : Nat) :
    mark_synced (mark_synced st did) did = mark_synced st did ∧
    ((∀ r ∈ st.rows, r.detection_id ≠ did) → mark_synced st did = st) ∧
    ((∀ r ∈ st.rows, r.detection_id = did → r.synced = true) →
      mark_synced st did = st) := by
  refine ⟨?_, ?_, ?_⟩
  · show Store.mk ((st.rows.map (markFn did)).map (markFn did)) st.nextId =
      Store.mk (st.rows.map (markFn did)) st.nextId
    exact congrArg (fun l => Store.mk l st.nextId)
      (map_map_eq (markFn did) (markFn_markFn did) st.rows)
  · intro h
    show Store.mk (st.rows.map (markFn did)) st.nextId = st
    rw [map_id_of (markFn did) st.rows (fun r hr => markFn_of_ne did r (h r hr))]
  · intro h
    show Store.mk (st.rows.map (markFn did)) st.nextId = st
    rw [map_id_of (markFn did) st.rows ?_]
    intro r hr
    by_cases heq : r.detection_id = did
    · exact markFn_of_synced did r (h r hr heq)
    · exact markFn_of_ne did r heq

/-- Claim C5: `get_unsynced_detections st limit` returns exactly the
`limit` pending rows with the smallest `created_at` (all pending rows when
fewer exist), in non-decreasing `created_at` order, and never a synced row:
the result is sorted, its length is `min limit (pending count)`, and it is
the small end of a split of the pending rows (the `created_at` of every returned
row is at most that of every pending row left out). -/
theorem c5_fifo_fetch (st : Store) (limit : Nat) :
    (get_unsynced_detections st limit).length = min limit (pendingCount st.rows) ∧
    (∀ r ∈ get_unsynced_detections st limit, r.synced = false) ∧
    List.Sorted recLE (get_unsynced_detections st limit) ∧
    ∃ rest, (get_unsynced_detections st limit ++ rest).Perm (pendingRows st.rows) ∧
      ∀ r ∈ get_unsynced_detections st limit, ∀ r' ∈ rest,
        r.created_at ≤ r'.created_at := by
  have hperm : (List.insertionSort recLE (pendingRows st.rows)).Perm
      (pendingRows st.rows) :=
    List.perm_insertionSort recLE (pendingRows st.rows)
  have hsort : List.Sorted recLE (List.insertionSort recLE (pendingRows st.rows)) :=
    List.sorted_insertionSort recLE (pendingRows st.rows)
  refine ⟨?_, ?_, ?_, ?_⟩
  · show ((List.insertionSort recLE (pendingRows st.rows)).take limit).length =
      min limit (pendingCount st.rows)
    rw [List.length_take, hperm.length_eq]
    rfl
  · intro r hr
    have h1 : r ∈ List.insertionSort recLE (pendingRows st.rows) :=
      (List.take_sublist limit _).subset hr
    have h2 : r ∈ pendingRows st.rows := hperm.mem_iff.mp h1
    have h3 := List.of_mem_filter h2
    simpa [pendingB] using h3
  · exact List.Pairwise.sublist (List.take_sublist limit _) hsort
  · refine ⟨(List.insertionSort recLE (pendingRows st.rows)).drop limit, ?_, ?_⟩
    · show ((List.insertionSort recLE (pendingRows st.rows)).take limit ++
        (List.insertionSort recLE (pendingRows st.rows)).drop limit).Perm
        (pendingRows st.rows)
      rw [List.take_append_drop]
      exact hperm
    · have hsplit : List.Pairwise recLE
          ((List.insertionSort recLE (pendingRows st.rows)).take limit ++
            (List.insertionSort recLE (pendingRows st.rows)).drop limit) := by
        rw [List.take_append_drop]
        exact hsort
      exact (List.pairwise_append.mp hsplit).2.2

/-- Claim C2: a queued record whose first two publish attempts fail at the
upload or insert step and whose third attempt succeeds ends with
`synced = true` and `attempts = 2` after the three cycles, the backend
received exactly one successful metadata insert across the three cycles,
and a cycle whose upload failed issued no insert call at all. -/
theorem c2_at_least_once (r : Rec) (k : Nat) (o1 o2 : AttemptSpec) (rid : Nat)
    (hs : r.synced = false) (ha : r.upload_attempts = 0)
    (h1 : o1 = AttemptSpec.uploadErr ∨ o1 = AttemptSpec.insertErr)
    (h2 : o2 = AttemptSpec.uploadErr ∨ o2 = AttemptSpec.insertErr) :
    (threeCycles r k o1 o2 rid).2.2.2.1.store.rows =
      [{ r with upload_attempts := 2, synced := true }] ∧
    (threeCycles r k o1 o2 rid).1.2.2.insertSuccesses +
      (threeCycles r k o1 o2 rid).2.1.2.2.insertSuccesses +
      (threeCycles r k o1 o2 rid).2.2.2.2.insertSuccesses = 1 ∧
    (o1 = AttemptSpec.uploadErr →
      (threeCycles r k o1 o2 rid).1.2.2.insertCalls = 0) ∧
    (o2 = AttemptSpec.uploadErr →
      (threeCycles r k o1 o2 rid).2.1.2.2.insertCalls = 0) := by
  obtain ⟨i, d, ip, c, t, la, lo, md, ua, ca, sy⟩ := r
  replace hs : sy = false := hs
  replace ha : ua = 0 := ha
  subst hs
  subst ha
  rcases h1 with h1 | h1 <;> subst h1 <;> rcases h2 with h2 | h2 <;> subst h2 <;>
    simp only [threeCycles,
      cycle_uploadErr ⟨i, d, ip, c, t, la, lo, md, 0, ca, false⟩ k rfl,
      cycle_insertErr ⟨i, d, ip, c, t, la, lo, md, 0, ca, false⟩ k rfl,
      cycle_uploadErr ⟨i, d, ip, c, t, la, lo, md, 1, ca, false⟩ k rfl,
      cycle_insertErr ⟨i, d, ip, c, t, la, lo, md, 1, ca, false⟩ k rfl,
      cycle_ok ⟨i, d, ip, c, t, la, lo, md, 2, ca, false⟩ k rid rfl] <;>
    simp

theorem c2_at_least_once_witness :
    (threeCycles sampleRow 2 AttemptSpec.uploadErr AttemptSpec.insertErr 42).2.2.2.1.store.rows =
      [{ sampleRow with upload_attempts := 2, synced := true }] ∧
    (threeCycles sampleRow 2 AttemptSpec.uploadErr AttemptSpec.insertErr 42).1.2.2.insertSuccesses +
      (threeCycles sampleRow 2 AttemptSpec.uploadErr AttemptSpec.insertErr 42).2.1.2.2.insertSuccesses +
      (threeCycles sampleRow 2 AttemptSpec.uploadErr AttemptSpec.insertErr 42).2.2.2.2.insertSuccesses = 1 ∧
    (AttemptSpec.uploadErr = AttemptSpec.uploadErr →
      (threeCycles sampleRow 2 AttemptSpec.uploadErr AttemptSpec.insertErr 42).1.2.2.insertCalls = 0) ∧
    (AttemptSpec.insertErr = AttemptSpec.uploadErr →
      (threeCycles sampleRow 2 AttemptSpec.uploadErr AttemptSpec.insertErr 42).2.1.2.2.insertCalls = 0) :=
  c2_at_least_once sampleRow 2 AttemptSpec.uploadErr AttemptSpec.insertErr 42
    rfl rfl (Or.inl rfl) (Or.inr rfl)

theorem c4_mark_synced_idempotent_witness :
    (mark_synced (mark_synced syncedStore 5) 5 = mark_synced syncedStore 5) ∧
    (mark_synced syncedStore 9 = syncedStore) ∧
    (mark_synced syncedStore 5 = syncedStore) :=
  ⟨(c4_mark_synced_idempotent syncedStore 5).1,
    (c4_mark_synced_idempotent syncedStore 9).2.1 (by decide),
    (c4_mark_synced_idempotent syncedStore 5).2.2 (by decide)⟩

theorem c5_fifo_fetch_witness :
    (get_unsynced_detections pendingStore 2).length =
      min 2 (pendingCount pendingStore.rows) ∧
    (∀ r ∈ get_unsynced_detections pendingStore 2, r.synced = false) ∧
    List.Sorted recLE (get_unsynced_detections pendingStore 2) ∧
    ∃ rest, (get_unsynced_detections pendingStore 2 ++ rest).Perm
        (pendingRows pendingStore.rows) ∧
      ∀ r ∈ get_unsynced_detections pendingStore 2, ∀ r' ∈ rest,
        r.created_at ≤ r'.created_at :=
  c5_fifo_fetch pendingStore 2

/-- Claim C6 counterexample: on a missing artifact file, `sync_detection`
returns `(False, None)` without touching the backend, but — contrary to the
claim — it does NOT increment the attempt counter of the record: the early
`return False, None` precedes every `increment_upload_attempts` call, so the
store is left completely unchanged (attempts stay 0, not 1). -/
theorem c6_counterexample :
    (sync_detection pendingStore sampleRow AttemptSpec.fileMissing).1 = (false, none) ∧
    (sync_detection pendingStore sampleRow AttemptSpec.fileMissing).2.1 = pendingStore ∧
    (sync_detection pendingStore sampleRow AttemptSpec.fileMissing).2.2 = Events.zero ∧
    ¬((sync_detection pendingStore sampleRow AttemptSpec.fileMissing).2.1.rows.map
        Rec.upload_attempts = [sampleRow.upload_attempts + 1]) := by
  decide

/-- Claim C6 (amended): when the local artifact file does not exist at
publish time, `sync_detection` returns failure (`success = false`, no remote
id) without contacting the backend, and the store is left unchanged: the
record remains pending and its attempts counter is NOT incremented. -/
theorem c6_missing_artifact (st : Store) (r : Rec) :
    sync_detection st r AttemptSpec.fileMissing = ((false, none), st, Events.zero) :=
  rfl

theorem c6_missing_artifact_witness :
    sync_detection pendingStore sampleRow AttemptSpec.fileMissing =
      ((false, none), pendingStore, Events.zero) :=
  c6_missing_artifact pendingStore sampleRow

/-- Claim C7: on a normal return, the retention sweep deletes exactly the
rows with `synced = true` and `created_at` strictly below the cutoff and
returns their count; a synced row exactly at the cutoff survives, a
strictly older synced row is deleted, and a pending row always survives. -/
theorem c7_retention (s : Store) (today : Date) (days : Nat) (s' : Store) (n : Nat)
    (h : cleanup_old_synced s today days = Except.ok (s', n)) :
    (∀ r ∈ s.rows,
      (r ∈ s'.rows ↔ ¬(r.synced = true ∧ r.created_at < cutoffOf today days))) ∧
    n = (s.rows.filter
      (fun r => r.synced && decide (r.created_at < cutoffOf today days))).length ∧
    (∀ r ∈ s.rows, r.synced = false → r ∈ s'.rows) ∧
    (∀ r ∈ s.rows, r.synced = true → r.created_at = cutoffOf today days →
      r ∈ s'.rows) ∧
    (∀ r ∈ s.rows, r.synced = true → r.created_at < cutoffOf today days →
      r ∉ s'.rows) := by
  unfold cleanup_old_synced at h
  by_cases hg : 1 ≤ (today.day : Int) - (days : Int) ∧
      (today.day : Int) - (days : Int) ≤ (daysInMonth today.year today.month : Int)
  · rw [if_pos hg] at h
    injection h with h1
    cases h1
    have hmain : ∀ r ∈ s.rows,
        (r ∈ (s.rows.filter
            (fun r => !(r.synced && decide (r.created_at < cutoffOf today days)))) ↔
          ¬(r.synced = true ∧ r.created_at < cutoffOf today days)) := by
      intro r hr
      constructor
      · intro hmem hcon
        have hp := List.of_mem_filter hmem
        rw [hcon.1] at hp
        simp [hcon.2] at hp
      · intro hnot
        refine List.mem_filter.mpr ⟨hr, ?_⟩
        cases hsy : r.synced with
        | false => simp [hsy]
        | true =>
          have hlt : ¬(r.created_at < cutoffOf today days) :=
            fun hlt => hnot ⟨hsy, hlt⟩
          simp [hsy, hlt]
    refine ⟨hmain, rfl, ?_, ?_, ?_⟩
    · intro r hr hsy
      exact (hmain r hr).mpr (fun hcon => by rw [hsy] at hcon; cases hcon.1)
    · intro r hr _ heq
      exact (hmain r hr).mpr (fun hcon => by
        rw [heq] at hcon
        exact Nat.lt_irrefl _ hcon.2)
    · intro r hr hsy hlt hmem
      exact ((hmain r hr).mp hmem) ⟨hsy, hlt⟩
  · rw [if_neg hg] at h
    cases h

theorem c7_retention_witness :
    (∀ r ∈ sweepStore.rows,
      (r ∈ sweptStore.rows ↔
        ¬(r.synced = true ∧ r.created_at < cutoffOf ⟨2026, 10, 12⟩ 7))) ∧
    (1 : Nat) = (sweepStore.rows.filter
      (fun r => r.synced && decide (r.created_at < cutoffOf ⟨2026, 10, 12⟩ 7))).length ∧
    (∀ r ∈ sweepStore.rows, r.synced = false → r ∈ sweptStore.rows) ∧
    (∀ r ∈ sweepStore.rows, r.synced = true →
      r.created_at = cutoffOf ⟨2026, 10, 12⟩ 7 → r ∈ sweptStore.rows) ∧
    (∀ r ∈ sweepStore.rows, r.synced = true →
      r.created_at < cutoffOf ⟨2026, 10, 12⟩ 7 → r ∉ sweptStore.rows) :=
  c7_retention sweepStore ⟨2026, 10, 12⟩ 7 sweptStore 1 rfl

/-- Claim C8 counterexample: two `add_detection` calls falling in the same
clock millisecond (`t_ms = 5`): the first succeeds, but the second hits the
`UNIQUE` constraint on `detection_id` and raises `IntegrityError` instead of
succeeding — no storage-medium fault is involved. -/
theorem c8_counterexample :
    add_detection ⟨[], 1⟩ sampleArgs =
      Except.ok (⟨[mkRec 1 sampleArgs], 2⟩, 5) ∧
    add_detection ⟨[mkRec 1 sampleArgs], 2⟩ collidingArgs = Except.error () :=
  ⟨rfl, rfl⟩

/-- Claim C8 (amended): `add_detection` succeeds and returns the id derived
from the enqueue-time millisecond clock value whenever no record currently
in the store carries that id; since the returned id equals the clock value,
calls with pairwise-distinct clock values return pairwise-distinct ids. -/
theorem c8_enqueue_success (s : Store) (a : EnqueueArgs)
    (h : ∀ r ∈ s.rows, r.detection_id ≠ a.t_ms) :
    ∃ s', add_detection s a = Except.ok (s', a.t_ms) := by
  unfold add_detection
  have hrows1 : ∀ r ∈ (if MAX_QUEUE_SIZE ≤ pendingCount s.rows then
      evictOldest s.rows else s.rows), r.detection_id ≠ a.t_ms := by
    intro r hr
    by_cases hg : MAX_QUEUE_SIZE ≤ pendingCount s.rows
    · rw [if_pos hg] at hr
      exact h r (mem_evictOldest s.rows r hr)
    · rw [if_neg hg] at hr
      exact h r hr
  have hany : ¬((if MAX_QUEUE_SIZE ≤ pendingCount s.rows then
      evictOldest s.rows else s.rows).any
        (fun r => r.detection_id == a.t_ms) = true) := by
    intro hc
    rcases List.any_eq_true.mp hc with ⟨r, hr, hb⟩
    exact hrows1 r hr (eq_of_beq hb)
  rw [if_neg hany]
  exact ⟨_, rfl⟩

theorem c8_enqueue_success_witness :
    ∃ s', add_detection ⟨[], 1⟩ sampleArgs = Except.ok (s', sampleArgs.t_ms) :=
  c8_enqueue_success ⟨[], 1⟩ sampleArgs (by decide)

/-- Claim C9 counterexample: a queued record whose location IS present but
reads `(0.0, 0.0)` publishes successfully, yet the metadata row omits both
coordinate fields — the Python check `if value:` is false for `0.0`, so presence of
the location is not what decides inclusion. -/
theorem c9_counterexample :
    zeroLocRow.latitude = some 0 ∧ zeroLocRow.longitude = some 0 ∧
    (sync_detection zeroLocStore zeroLocRow (AttemptSpec.ok 3)).1.1 = true ∧
    (sync_detection zeroLocStore zeroLocRow (AttemptSpec.ok 3)).2.2.insertedRows.map
      DetectionData.latitude = [none] ∧
    (sync_detection zeroLocStore zeroLocRow (AttemptSpec.ok 3)).2.2.insertedRows.map
      DetectionData.longitude = [none] := by
  decide

/-- Claim C9 (amended): a successful publish inserts exactly one metadata
row, whose latitude (resp. longitude) field is present exactly when the
coordinate of the record is present AND nonzero (Python truthiness); otherwise
the field is omitted entirely (`none`), never sent as a null value. -/
theorem c9_location_truthiness (st : Store) (r : Rec) (rid : Nat) :
    (sync_detection st r (AttemptSpec.ok rid)).2.2.insertedRows = [detectionDataOf r] ∧
    (detectionDataOf r).latitude = truthyF r.latitude ∧
    (detectionDataOf r).longitude = truthyF r.longitude ∧
    (∀ o : Option Int, (truthyF o).isSome ↔ ∃ v, o = some v ∧ v ≠ 0) := by
  refine ⟨rfl, rfl, rfl, ?_⟩
  intro o
  cases o with
  | none => simp [truthyF]
  | some v =>
    by_cases hv : v = 0
    · simp [truthyF, hv]
    · simp [truthyF, hv]

theorem c9_location_truthiness_witness :
    (sync_detection pendingStore sampleRow (AttemptSpec.ok 7)).2.2.insertedRows =
      [detectionDataOf sampleRow] ∧
    (detectionDataOf sampleRow).latitude = truthyF sampleRow.latitude ∧
    (detectionDataOf sampleRow).longitude = truthyF sampleRow.longitude ∧
    (∀ o : Option Int, (truthyF o).isSome ↔ ∃ v, o = some v ∧ v ≠ 0) :=
  c9_location_truthiness pendingStore sampleRow 7

/-- Claim C10: the retention sweep raises whenever the current day-of-month
is at most the retention window `days` (the cutoff is computed by replacing
the day-of-month field with `day - days`, not by subtracting a duration),
and returns normally only when `day - days` names a valid day of the
current month. -/
theorem c10_cleanup_day_arith (s : Store) (today : Date) (days : Nat) :
    (today.day ≤ days → cleanup_old_synced s today days = Except.error ()) ∧
    (∀ out, cleanup_old_synced s today days = Except.ok out →
      1 ≤ (today.day : Int) - (days : Int) ∧
      (today.day : Int) - (days : Int) ≤
        (daysInMonth today.year today.month : Int)) := by
  constructor
  · intro hle
    have hc : ¬(1 ≤ (today.day : Int) - (days : Int) ∧
        (today.day : Int) - (days : Int) ≤
          (daysInMonth today.year today.month : Int)) := by
      intro hcon
      obtain ⟨h1, _⟩ := hcon
      omega
    unfold cleanup_old_synced
    rw [if_neg hc]
  · intro out hout
    unfold cleanup_old_synced at hout
    by_cases hg : 1 ≤ (today.day : Int) - (days : Int) ∧
        (today.day : Int) - (days : Int) ≤
          (daysInMonth today.year today.month : Int)
    · exact hg
    · rw [if_neg hg] at hout
      cases hout

theorem c10_cleanup_day_arith_witness :
    cleanup_old_synced pendingStore ⟨2026, 3, 5⟩ 7 = Except.error () ∧
    (1 ≤ ((12 : Nat) : Int) - ((7 : Nat) : Int) ∧
      ((12 : Nat) : Int) - ((7 : Nat) : Int) ≤ ((31 : Nat) : Int)) :=
  ⟨(c10_cleanup_day_arith pendingStore ⟨2026, 3, 5⟩ 7).1 (by decide),
    (c10_cleanup_day_arith pendingStore ⟨2026, 10, 12⟩ 7).2
      (pendingStore, 0) rfl⟩

end SnakeGuard
